import Mathlib

/-!
# Verification of the Expensive-tracker persistence-and-aggregation layer

Shallow embedding of `src/database/db_manager.py` (`DatabaseManager`) and
`src/logic/analyzer.py` (`ExpenseAnalyzer`).

Modelling choices:
* SQLite values are modelled by `Value` (`null`, `real`, `text`); SQL `REAL`
  numbers are modelled exactly by `ℚ`.
* The `expenses` table is a list of `Row`s plus an `AUTOINCREMENT` counter
  `nextId` and a `tableExists` flag (`CREATE TABLE IF NOT EXISTS`).
* Environment faults are injected through `Env`: `connOk = false` means
  `sqlite3.connect` raises, i.e. `_get_connection` returns `None`;
  `execFail = true` means the statement execution raises `sqlite3.Error`.
* Python exceptions that escape a method are modelled by `Except PyExc`;
  `PyExc.contextError` is the `TypeError`/`AttributeError` raised by
  `with None as conn:` (the context-manager protocol failure), which the
  `except sqlite3.Error` clauses do not catch.
* Each Store call also reports how many connections it opened and closed
  (`CallLog`), to settle the resource claims: the sqlite3 connection used as
  a context manager (`with conn:`) commits or rolls back but does NOT close;
  only `create_table` calls `conn.close()` in a `finally` block.
* `ORDER BY date DESC` uses SQLite BINARY (byte-wise) text comparison, which
  agrees with Lean's lexicographic `String` order on UTF-8 encoded strings;
  ties are broken by an unspecified permutation, refined here to the stable
  `List.insertionSort`.
-/

/-- A SQLite storage value as it can occur in the `amount` column.
`category` and `date` are kept as `String` (`TEXT NOT NULL`, and the Python
API passes `str`); `description` as `Option String` (nullable `TEXT`). -/
inductive Value where
  | null : Value
  | real (q : ℚ) : Value
  | text (s : String) : Value
deriving DecidableEq, Repr

/-- One row of the `expenses` table:
`(id INTEGER PRIMARY KEY AUTOINCREMENT, amount REAL NOT NULL,
  category TEXT NOT NULL, date TEXT NOT NULL, description TEXT)`. -/
structure Row where
  id : Nat
  amount : Value
  category : String
  date : String
  description : Option String
deriving DecidableEq, Repr

/-- The state of the SQLite database file. -/
structure DBState where
  tableExists : Bool
  rows : List Row
  nextId : Nat
deriving DecidableEq, Repr

/-- Python exceptions that can escape a Store method. -/
inductive PyExc where
  | contextError : PyExc
  | sqliteError : PyExc
deriving DecidableEq, Repr

/-- Injected storage-engine faults for one Store call. -/
structure Env where
  connOk : Bool
  execFail : Bool
deriving DecidableEq, Repr

/-- Connections opened and closed during one Store call. -/
structure CallLog where
  opened : Nat
  closed : Nat
deriving DecidableEq, Repr

/-- Result of one Store call: the Python return value or the escaped
exception, the database state afterwards, and the connection accounting. -/
structure OpResult (α : Type) where
  res : Except PyExc α
  st : DBState
  log : CallLog
deriving Repr

/-- Parse a digit character. -/
def charDigit (c : Char) : Option Nat :=
  if c.isDigit then some (c.toNat - '0'.toNat) else none

/-- Accumulate a digit string into a natural number (`some 0` on `[]`;
callers check non-emptiness). -/
def digitsToNat (cs : List Char) : Option Nat :=
  cs.foldl (fun acc c => do pure ((← acc) * 10 + (← charDigit c))) (some 0)

/-- Parse an unsigned decimal literal `digits[.digits]` with at least one
digit, as both SQLite REAL affinity and `pandas.to_numeric` accept. -/
def parseUnsignedRat (cs : List Char) : Option ℚ :=
  let intPart := cs.takeWhile (·.isDigit)
  let rest := cs.dropWhile (·.isDigit)
  match rest with
  | [] => if intPart.isEmpty then none else (digitsToNat intPart).map (fun n => (n : ℚ))
  | '.' :: frac =>
      if frac.all (·.isDigit) && !(intPart.isEmpty && frac.isEmpty) then do
        let i ← digitsToNat intPart
        let f ← digitsToNat frac
        pure ((i : ℚ) + (f : ℚ) / ((10 : ℚ) ^ frac.length))
      else none
  | _ => none

/-- Parse a signed decimal literal: the numeric-text coercion shared by
SQLite REAL column affinity and `pandas.to_numeric(errors=coerce)`. -/
def parseNum (s : String) : Option ℚ :=
  match s.toList with
  | [] => none
  | '-' :: rest => (parseUnsignedRat rest).map Neg.neg
  | '+' :: rest => parseUnsignedRat rest
  | cs => parseUnsignedRat cs

/-- SQLite REAL column affinity applied to an inserted `amount`:
numbers stay numeric, numeric-looking text is converted to a real,
other text is stored as-is, `NULL` stays `NULL`. -/
def applyRealAffinity : Value → Value
  | Value.null => Value.null
  | Value.real q => Value.real q
  | Value.text s =>
      match parseNum s with
      | some q => Value.real q
      | none => Value.text s

/-- `DatabaseManager._get_connection`: `sqlite3.connect` succeeds and yields
a connection, or raises (caught inside `_get_connection`) and yields `None`. -/
def getConnection (env : Env) : Option Unit :=
  if env.connOk then some () else none

/-- `DatabaseManager.create_table`: `CREATE TABLE IF NOT EXISTS expenses ...`.
Connection failure and `sqlite3.Error` are both handled (the method checks
`conn is not None` before the `with`), and the connection is closed in a
`finally` block, so the call never raises. -/
def create_table (env : Env) (st : DBState) : OpResult Unit :=
  match getConnection env with
  | none => ⟨Except.ok (), st, ⟨0, 0⟩⟩
  | some _ =>
      if env.execFail then
        ⟨Except.ok (), st, ⟨1, 1⟩⟩
      else
        ⟨Except.ok (), { st with tableExists := true }, ⟨1, 1⟩⟩

/-- `DatabaseManager.add_expense`:
`INSERT INTO expenses (amount, category, date, description) VALUES (?,?,?,?)`
inside `with self._get_connection() as conn:`. When `_get_connection`
returns `None`, `with None` raises a context-manager protocol error that the
`except sqlite3.Error` clause does not catch. A `sqlite3.Error` from
`execute` (injected fault, missing table, or the `NOT NULL` constraint on
`amount`) is caught and the method returns `False`. On success the row is
committed with the next `AUTOINCREMENT` id and the method returns `True`.
The `with conn:` block never closes the connection. -/
def add_expense (env : Env) (st : DBState) (amount : Value)
    (category date : String) (description : Option String) : OpResult Bool :=
  match getConnection env with
  | none => ⟨Except.error PyExc.contextError, st, ⟨0, 0⟩⟩
  | some _ =>
      if env.execFail || !st.tableExists || applyRealAffinity amount == Value.null then
        ⟨Except.ok false, st, ⟨1, 0⟩⟩
      else
        ⟨Except.ok true,
          { st with
              rows := st.rows ++
                [⟨st.nextId, applyRealAffinity amount, category, date, description⟩],
              nextId := st.nextId + 1 },
          ⟨1, 0⟩⟩

/-- Codepoint-wise lexicographic comparison of character lists: the order
SQLite's BINARY collation (byte-wise memcmp over UTF-8) and Python string
comparison both induce. -/
def charsLe : List Char → List Char → Bool
  | [], _ => true
  | _ :: _, [] => false
  | a :: as, b :: bs =>
      if a.toNat < b.toNat then true
      else if b.toNat < a.toNat then false
      else charsLe as bs

/-- Lexicographic string comparison over the underlying characters. -/
def strLe (a b : String) : Bool := charsLe a.data b.data

/-- The string comparison as a decidable relation (used by the pandas
`groupby` key sort). -/
def strLeP (a b : String) : Prop := strLe a b = true

instance : DecidableRel strLeP :=
  fun a b => inferInstanceAs (Decidable (strLe a b = true))

/-- Descending-date comparison used by `ORDER BY date DESC`. -/
def dateGe (a b : Row) : Prop := strLe b.date a.date = true

instance : DecidableRel dateGe :=
  fun a b => inferInstanceAs (Decidable (strLe b.date a.date = true))

instance : IsTotal String strLeP := by
  constructor
  have key : ∀ (as bs : List Char), charsLe as bs = true ∨ charsLe bs as = true := by
    intro as
    induction as with
    | nil => intro bs; left; rfl
    | cons x xs ih =>
        intro bs
        cases bs with
        | nil => right; rfl
        | cons y ys =>
            simp only [charsLe]
            rcases Nat.lt_trichotomy x.toNat y.toNat with h | h | h
            · left; rw [if_pos h]
            · have hn1 : ¬ x.toNat < y.toNat := by omega
              have hn2 : ¬ y.toNat < x.toNat := by omega
              simp only [if_neg hn1, if_neg hn2]
              exact ih ys
            · right; rw [if_pos h]
  intro a b
  exact key a.data b.data

instance : IsTrans String strLeP := by
  constructor
  have key : ∀ (as bs cs : List Char), charsLe as bs = true → charsLe bs cs = true →
      charsLe as cs = true := by
    intro as
    induction as with
    | nil => intro bs cs _ _; rfl
    | cons x xs ih =>
        intro bs cs h1 h2
        cases bs with
        | nil => simp [charsLe] at h1
        | cons y ys =>
            cases cs with
            | nil => simp [charsLe] at h2
            | cons z zs =>
                simp only [charsLe] at h1 h2 ⊢
                by_cases hxy : x.toNat < y.toNat
                · by_cases hyz : y.toNat < z.toNat
                  · rw [if_pos (by omega : x.toNat < z.toNat)]
                  · by_cases hzy : z.toNat < y.toNat
                    · rw [if_neg hyz, if_pos hzy] at h2
                      simp at h2
                    · rw [if_pos (by omega : x.toNat < z.toNat)]
                · by_cases hyx : y.toNat < x.toNat
                  · rw [if_neg hxy, if_pos hyx] at h1
                    simp at h1
                  · simp only [if_neg hxy, if_neg hyx] at h1
                    by_cases hyz : y.toNat < z.toNat
                    · rw [if_pos (by omega : x.toNat < z.toNat)]
                    · by_cases hzy : z.toNat < y.toNat
                      · rw [if_neg hyz, if_pos hzy] at h2
                        simp at h2
                      · simp only [if_neg hyz, if_neg hzy] at h2
                        simp only [if_neg (by omega : ¬ x.toNat < z.toNat),
                          if_neg (by omega : ¬ z.toNat < x.toNat)]
                        exact ih ys zs h1 h2
  intro a b c hab hbc
  exact key a.data b.data c.data hab hbc

instance : IsAntisymm String strLeP := by
  constructor
  have key : ∀ (as bs : List Char), charsLe as bs = true → charsLe bs as = true → as = bs := by
    intro as
    induction as with
    | nil =>
        intro bs _ h2
        cases bs with
        | nil => rfl
        | cons y ys => simp [charsLe] at h2
    | cons x xs ih =>
        intro bs h1 h2
        cases bs with
        | nil => simp [charsLe] at h1
        | cons y ys =>
            simp only [charsLe] at h1 h2
            by_cases hxy : x.toNat < y.toNat
            · rw [if_neg (by omega : ¬ y.toNat < x.toNat), if_pos hxy] at h2
              simp at h2
            · by_cases hyx : y.toNat < x.toNat
              · rw [if_neg hxy, if_pos hyx] at h1
                simp at h1
              · have hn : x.toNat = y.toNat := by omega
                have hxeq : x = y := Char.ext (UInt32.ext hn)
                simp only [if_neg hxy, if_neg hyx] at h1 h2
                rw [hxeq, ih ys h1 h2]
  intro a b h1 h2
  have := key a.data b.data h1 h2
  cases a
  cases b
  exact congrArg String.mk this

instance : IsTotal Row dateGe := ⟨fun a b => total_of strLeP b.date a.date⟩

instance : IsTrans Row dateGe := ⟨fun _ _ _ hab hbc => trans_of strLeP hbc hab⟩

/-- `DatabaseManager.fetch_all_expenses`:
`SELECT * FROM expenses ORDER BY date DESC`, same `with`/`except` shape as
`add_expense`: connection failure raises an uncaught context-manager error,
`sqlite3.Error` (injected fault or missing table) yields `[]`, otherwise all
rows sorted by `date` descending. The connection is never closed. -/
def fetch_all_expenses (env : Env) (st : DBState) : OpResult (List Row) :=
  match getConnection env with
  | none => ⟨Except.error PyExc.contextError, st, ⟨0, 0⟩⟩
  | some _ =>
      if env.execFail || !st.tableExists then
        ⟨Except.ok [], st, ⟨1, 0⟩⟩
      else
        ⟨Except.ok (List.insertionSort dateGe st.rows), st, ⟨1, 0⟩⟩

/-- Repeated calls of `create_table` under the same environment
(the schema-initialisation loop of the idempotence claim). -/
def iterCreateTable (env : Env) : Nat → DBState → DBState
  | 0, st => st
  | n + 1, st => iterCreateTable env n (create_table env st).st

/-- The Store invariant maintained by the SQLite schema: `AUTOINCREMENT`
ids are strictly increasing along insertion order and below the counter,
and the `NOT NULL` constraint holds for `amount` (`category`/`date` are
non-null by type). -/
def StoreInv (st : DBState) : Prop :=
  st.rows.Chain' (fun a b => a.id < b.id) ∧
  (∀ r ∈ st.rows, r.id < st.nextId) ∧
  (∀ r ∈ st.rows, r.amount ≠ Value.null)

/-- One row of the pandas DataFrame built by
`ExpenseAnalyzer.get_all_as_dataframe`: the `amount` column after
`pd.to_numeric(errors=coerce)`, where `none` models `NaN`. -/
structure DFRow where
  id : Nat
  amount : Option ℚ
  category : String
  date : String
  description : Option String
deriving DecidableEq, Repr

/-- `pd.to_numeric(errors=coerce)` on one stored amount: numbers pass
through, numeric text parses, everything else becomes `NaN` (`none`). -/
def to_numeric : Value → Option ℚ
  | Value.null => none
  | Value.real q => some q
  | Value.text s => parseNum s

/-- Turn one fetched row into a DataFrame row, coercing `amount`. -/
def toDF (r : Row) : DFRow :=
  ⟨r.id, to_numeric r.amount, r.category, r.date, r.description⟩

/-- `ExpenseAnalyzer.get_all_as_dataframe`: fetch all expenses and build a
DataFrame with columns `id, amount, category, date, description`, coercing
`amount` to numeric. An exception from `fetch_all_expenses` is not caught
by the analyzer and propagates. -/
def get_all_as_dataframe (env : Env) (st : DBState) : Except PyExc (List DFRow) :=
  match (fetch_all_expenses env st).res with
  | Except.error e => Except.error e
  | Except.ok raw => Except.ok (raw.map toDF)

/-- A pandas sum over a float column skips `NaN` entries (`skipna=True`);
the sum of an all-`NaN` (or empty) column is `0.0`. -/
def nanSum (l : List (Option ℚ)) : ℚ := (l.filterMap id).sum

/-- `ExpenseAnalyzer.get_total_balance`: `0.0` on an empty DataFrame, else
`float(df[amount].sum())`. -/
def get_total_balance (env : Env) (st : DBState) : Except PyExc ℚ :=
  match get_all_as_dataframe env st with
  | Except.error e => Except.error e
  | Except.ok df =>
      if df.isEmpty then Except.ok 0
      else Except.ok (nanSum (df.map (fun r => r.amount)))

/-- `ExpenseAnalyzer.get_category_totals`: an empty Series on an empty
DataFrame, else `df.groupby(category)[amount].sum()` — the distinct
category labels in ascending order (pandas `groupby` sorts group keys by
default), each mapped to the `NaN`-skipping sum of its group's amounts. -/
def get_category_totals (env : Env) (st : DBState) : Except PyExc (List (String × ℚ)) :=
  match get_all_as_dataframe env st with
  | Except.error e => Except.error e
  | Except.ok df =>
      if df.isEmpty then Except.ok []
      else
        Except.ok
          (((df.map (fun r => r.category)).dedup.insertionSort strLeP).map
            fun c => (c, nanSum ((df.filter (fun r => r.category == c)).map (fun r => r.amount))))

/-- The `NaN`-skipping sum of the coerced amounts of the rows in category
`c`: the per-group value computed by `df.groupby(category)[amount].sum()`. -/
def rowCategorySum (rows : List Row) (c : String) : ℚ :=
  ((rows.filter (fun r => r.category == c)).filterMap (fun r => to_numeric r.amount)).sum

/-- Order-independent characterisation of `get_category_totals`: the
distinct categories of `rows` in ascending order, each paired with its
group's `NaN`-skipping amount sum. -/
def categoryTotalsOf (rows : List Row) : List (String × ℚ) :=
  ((rows.map (fun r => r.category)).dedup.insertionSort strLeP).map
    (fun c => (c, rowCategorySum rows c))

/-! ## Concrete example inputs -/

/-- A fault-free environment: `sqlite3.connect` succeeds and statements
execute without error. -/
def envOkC : Env := ⟨true, false⟩

/-- A freshly initialised store: table created, no rows, first
`AUTOINCREMENT` id is 1. -/
def emptyStore : DBState := ⟨true, [], 1⟩

/-- The aggregation example of the spec: insert `(10, Food)`, `(20, Food)`,
`(5, Transport)` into a fresh store. -/
def aggExample : DBState :=
  (add_expense envOkC
    ((add_expense envOkC
      ((add_expense envOkC emptyStore (Value.real 10) "Food" "2025-01-01 09:00:00" none).st)
      (Value.real 20) "Food" "2025-01-02 09:00:00" none).st)
    (Value.real 5) "Transport" "2025-01-03 09:00:00" none).st

/-- The ordering example of the spec: insert records dated January, March,
February 2025, in that order. -/
def ordExample : DBState :=
  (add_expense envOkC
    ((add_expense envOkC
      ((add_expense envOkC emptyStore (Value.real 1) "A" "2025-01-01 12:00:00" none).st)
      (Value.real 2) "B" "2025-03-01 12:00:00" none).st)
    (Value.real 3) "C" "2025-02-01 12:00:00" none).st

/-- A store whose every amount fails numeric coercion: two rows whose
`amount` is non-numeric text. -/
def nanExample : DBState :=
  (add_expense envOkC
    ((add_expense envOkC emptyStore (Value.text "abc") "Food" "2025-01-01 09:00:00" none).st)
    (Value.text "xyz") "Transport" "2025-01-02 09:00:00" none).st

/-! ## Helper lemmas -/

theorem fetch_ok_eq (env : Env) (st : DBState) (hc : env.connOk = true)
    (he : env.execFail = false) (ht : st.tableExists = true) :
    (fetch_all_expenses env st).res = Except.ok (List.insertionSort dateGe st.rows) := by
  simp [fetch_all_expenses, getConnection, hc, he, ht]

theorem dataframe_ok_eq (env : Env) (st : DBState) (hc : env.connOk = true)
    (he : env.execFail = false) (ht : st.tableExists = true) :
    get_all_as_dataframe env st =
      Except.ok ((List.insertionSort dateGe st.rows).map toDF) := by
  simp [get_all_as_dataframe, fetch_ok_eq env st hc he ht]

theorem total_balance_eq (env : Env) (st : DBState) (hc : env.connOk = true)
    (he : env.execFail = false) (ht : st.tableExists = true) :
    get_total_balance env st =
      Except.ok ((st.rows.filterMap (fun r => to_numeric r.amount)).sum) := by
  have hdf := dataframe_ok_eq env st hc he ht
  have hperm : (List.insertionSort dateGe st.rows).Perm st.rows :=
    List.perm_insertionSort dateGe st.rows
  simp only [get_total_balance, hdf]
  by_cases hrows : st.rows = []
  · rw [hrows]
    simp [List.insertionSort]
  · have hsne : List.insertionSort dateGe st.rows ≠ [] := by
      intro h
      apply hrows
      have h2 := hperm.symm
      rw [h] at h2
      exact h2.eq_nil
    have hne : ((List.insertionSort dateGe st.rows).map toDF).isEmpty = false := by
      simp [List.isEmpty_iff, hsne]
    rw [hne]
    simp only [Bool.false_eq_true, if_false]
    congr 1
    calc nanSum (((List.insertionSort dateGe st.rows).map toDF).map (fun r => r.amount))
        = ((List.insertionSort dateGe st.rows).filterMap (fun r => to_numeric r.amount)).sum := by
          simp only [nanSum, List.map_map, List.filterMap_map]
          rfl
      _ = (st.rows.filterMap (fun r => to_numeric r.amount)).sum :=
          (hperm.filterMap (fun r => to_numeric r.amount)).sum_eq

theorem category_totals_eq (env : Env) (st : DBState) (hc : env.connOk = true)
    (he : env.execFail = false) (ht : st.tableExists = true) :
    get_category_totals env st = Except.ok (categoryTotalsOf st.rows) := by
  have hdf := dataframe_ok_eq env st hc he ht
  have hperm : (List.insertionSort dateGe st.rows).Perm st.rows :=
    List.perm_insertionSort dateGe st.rows
  simp only [get_category_totals, hdf]
  by_cases hrows : st.rows = []
  · rw [hrows]
    simp [categoryTotalsOf, rowCategorySum, List.insertionSort]
  · have hsne : List.insertionSort dateGe st.rows ≠ [] := by
      intro h
      apply hrows
      have h2 := hperm.symm
      rw [h] at h2
      exact h2.eq_nil
    have hne : ((List.insertionSort dateGe st.rows).map toDF).isEmpty = false := by
      simp [List.isEmpty_iff, hsne]
    rw [hne]
    simp only [Bool.false_eq_true, if_false]
    congr 1
    have hcatmap : ((List.insertionSort dateGe st.rows).map toDF).map (fun r => r.category)
        = (List.insertionSort dateGe st.rows).map (fun r => r.category) := by
      rw [List.map_map]; rfl
    have hp1 : (((List.insertionSort dateGe st.rows).map toDF).map (fun r => r.category)).dedup.Perm
        ((st.rows.map (fun r => r.category)).dedup) := by
      rw [hcatmap]
      exact (hperm.map (fun r => r.category)).dedup
    have hkeys :
        (((List.insertionSort dateGe st.rows).map toDF).map (fun r => r.category)).dedup.insertionSort
            strLeP =
          ((st.rows.map (fun r => r.category)).dedup.insertionSort strLeP) :=
      List.eq_of_perm_of_sorted
        (((List.perm_insertionSort _ _).trans hp1).trans (List.perm_insertionSort _ _).symm)
        (List.sorted_insertionSort _ _) (List.sorted_insertionSort _ _)
    simp only [categoryTotalsOf]
    rw [hkeys]
    apply List.map_congr_left
    intro c _
    congr 1
    calc nanSum ((((List.insertionSort dateGe st.rows).map toDF).filter
            (fun r => r.category == c)).map (fun r => r.amount))
        = (((List.insertionSort dateGe st.rows).filter
            (fun r => r.category == c)).filterMap (fun r => to_numeric r.amount)).sum := by
          rw [List.filter_map]
          simp only [nanSum, List.map_map, List.filterMap_map]
          rfl
      _ = rowCategorySum st.rows c := by
          exact ((hperm.filter (fun r => r.category == c)).filterMap
            (fun r => to_numeric r.amount)).sum_eq

theorem categoryTotalsOf_keys (rows : List Row) :
    (categoryTotalsOf rows).map Prod.fst
      = (rows.map (fun r => r.category)).dedup.insertionSort strLeP := by
  unfold categoryTotalsOf
  rw [List.map_map]
  rw [show (Prod.fst ∘ fun c : String => (c, rowCategorySum rows c)) = id from rfl, List.map_id]

theorem create_table_preserves (env : Env) (st : DBState) :
    (create_table env st).st.rows = st.rows ∧ (create_table env st).st.nextId = st.nextId := by
  rcases env with ⟨c, e⟩
  cases c <;> cases e <;> simp [create_table, getConnection]

theorem create_table_never_raises (env : Env) (st : DBState) :
    (create_table env st).res = Except.ok () := by
  rcases env with ⟨c, e⟩
  cases c <;> cases e <;> simp [create_table, getConnection]

theorem create_table_sets (env : Env) (st : DBState) (hc : env.connOk = true)
    (he : env.execFail = false) : (create_table env st).st.tableExists = true := by
  unfold create_table getConnection
  simp [hc, he]

theorem create_table_keeps (env : Env) (st : DBState) (ht : st.tableExists = true) :
    (create_table env st).st.tableExists = true := by
  rcases env with ⟨c, e⟩
  cases c <;> cases e <;> simp [create_table, getConnection, ht]

theorem iterCreateTable_preserves (env : Env) : ∀ (n : Nat) (st : DBState),
    (iterCreateTable env n st).rows = st.rows ∧ (iterCreateTable env n st).nextId = st.nextId
  | 0, _ => ⟨rfl, rfl⟩
  | n + 1, st => by
      have h := iterCreateTable_preserves env n (create_table env st).st
      have hp := create_table_preserves env st
      exact ⟨by rw [iterCreateTable, h.1, hp.1], by rw [iterCreateTable, h.2, hp.2]⟩

theorem iterCreateTable_keeps (env : Env) : ∀ (n : Nat) (st : DBState),
    st.tableExists = true → (iterCreateTable env n st).tableExists = true
  | 0, _, ht => ht
  | n + 1, st, ht => by
      rw [iterCreateTable]
      exact iterCreateTable_keeps env n _ (create_table_keeps env st ht)

theorem fetch_state_id (env : Env) (st : DBState) : (fetch_all_expenses env st).st = st := by
  rcases env with ⟨c, e⟩
  rcases st with ⟨t, rows, n⟩
  cases c <;> cases e <;> cases t <;> simp [fetch_all_expenses, getConnection]

theorem create_table_log (env : Env) (st : DBState) :
    (create_table env st).log = ⟨if env.connOk then 1 else 0, if env.connOk then 1 else 0⟩ := by
  rcases env with ⟨c, e⟩
  cases c <;> cases e <;> rfl

theorem add_expense_log (env : Env) (st : DBState) (amount : Value) (category date : String)
    (description : Option String) :
    (add_expense env st amount category date description).log
      = ⟨if env.connOk then 1 else 0, 0⟩ := by
  rcases env with ⟨c, e⟩
  cases c
  · rfl
  · cases h : (e || !st.tableExists || applyRealAffinity amount == Value.null) <;>
      simp [add_expense, getConnection, h]

theorem fetch_all_expenses_log (env : Env) (st : DBState) :
    (fetch_all_expenses env st).log = ⟨if env.connOk then 1 else 0, 0⟩ := by
  rcases env with ⟨c, e⟩
  cases c
  · rfl
  · cases h : (e || !st.tableExists) <;> simp [fetch_all_expenses, getConnection, h]

theorem add_expense_ok_cases (env : Env) (st : DBState) (amount : Value)
    (category date : String) (description : Option String)
    (hok : (add_expense env st amount category date description).res = Except.ok true) :
    env.connOk = true ∧ env.execFail = false ∧ st.tableExists = true ∧
    applyRealAffinity amount ≠ Value.null ∧
    (add_expense env st amount category date description).st =
      { st with
          rows := st.rows ++ [⟨st.nextId, applyRealAffinity amount, category, date, description⟩],
          nextId := st.nextId + 1 } := by
  by_cases hc : env.connOk = true
  · by_cases he : env.execFail = true
    · exfalso
      simp [add_expense, getConnection, hc, he] at hok
    · have he' : env.execFail = false := by simpa using he
      by_cases ht : st.tableExists = true
      · by_cases hnn : applyRealAffinity amount = Value.null
        · exfalso
          simp [add_expense, getConnection, hc, he', ht, hnn] at hok
        · refine ⟨hc, he', ht, hnn, ?_⟩
          simp [add_expense, getConnection, hc, he', ht, hnn]
      · exfalso
        have ht' : st.tableExists = false := by simpa using ht
        simp [add_expense, getConnection, hc, ht'] at hok
  · exfalso
    have hc' : env.connOk = false := by simpa using hc
    simp [add_expense, getConnection, hc'] at hok

/-! ## Claim theorems -/

/-- Claim C1 (code bug). The claim says every Store operation converts every
storage error, including a failed connection (`_get_connection` returning
`None`), into `False` / an empty sequence and never propagates an exception.
The code contradicts its own docstrings here: when `_get_connection` returns
`None`, `with None as conn:` raises a context-manager protocol error
(`TypeError`/`AttributeError`) that the `except sqlite3.Error` clause does
not catch, so both `add_expense` and `fetch_all_expenses` propagate an
exception instead of returning their sentinel. -/
theorem C1_connection_failure_raises :
    (add_expense ⟨false, false⟩ ⟨true, [], 1⟩ (Value.real 25) "Food"
        "2025-01-01 12:00:00" (some "lunch")).res = Except.error PyExc.contextError ∧
    (fetch_all_expenses ⟨false, false⟩ ⟨true, [], 1⟩).res = Except.error PyExc.contextError :=
  ⟨rfl, rfl⟩

/-- Claim C8 counterexample. The claim says every Store operation closes its
connection on every exit path; but a successful `add_expense` call opens one
connection (`with self._get_connection() as conn:`) and closes none — the
sqlite3 connection context manager commits or rolls back, it does not
close. -/
theorem C8_counterexample :
    (add_expense envOkC emptyStore (Value.real 25) "Food" "2025-01-01 12:00:00"
        (some "lunch")).log.opened = 1 ∧
    (add_expense envOkC emptyStore (Value.real 25) "Food" "2025-01-01 12:00:00"
        (some "lunch")).log.closed = 0 :=
  ⟨rfl, rfl⟩

/-- Claim C8 (amended): only `create_table` releases every connection it
opens (it closes in a `finally` block); `add_expense` and
`fetch_all_expenses` open one connection whenever `_get_connection`
succeeds and never close it. -/
theorem C8_connection_release (env : Env) (st : DBState) (amount : Value)
    (category date : String) (description : Option String) :
    (create_table env st).log.closed = (create_table env st).log.opened ∧
    (create_table env st).log.opened = (if env.connOk then 1 else 0) ∧
    (add_expense env st amount category date description).log.opened
      = (if env.connOk then 1 else 0) ∧
    (add_expense env st amount category date description).log.closed = 0 ∧
    (fetch_all_expenses env st).log.opened = (if env.connOk then 1 else 0) ∧
    (fetch_all_expenses env st).log.closed = 0 := by
  refine ⟨?_, ?_, ?_, ?_, ?_, ?_⟩
  · rw [create_table_log]
  · rw [create_table_log]
  · rw [add_expense_log]
  · rw [add_expense_log]
  · rw [fetch_all_expenses_log]
  · rw [fetch_all_expenses_log]

/-- Claim C6: schema initialisation is idempotent — `create_table` never
raises for any environment or state, and any positive number of repeated
fault-free calls leaves the table existing with the rows and the id counter
untouched. -/
theorem C6_create_table_idempotent (env : Env) (st : DBState) (n : Nat)
    (hc : env.connOk = true) (he : env.execFail = false) (hn : 1 ≤ n) :
    (∀ (env2 : Env) (st2 : DBState), (create_table env2 st2).res = Except.ok ()) ∧
    (iterCreateTable env n st).rows = st.rows ∧
    (iterCreateTable env n st).nextId = st.nextId ∧
    (iterCreateTable env n st).tableExists = true := by
  refine ⟨create_table_never_raises, (iterCreateTable_preserves env n st).1,
    (iterCreateTable_preserves env n st).2, ?_⟩
  cases n with
  | zero => exact absurd hn (by simp)
  | succ m =>
      rw [iterCreateTable]
      exact iterCreateTable_keeps env m _ (create_table_sets env st hc he)

/-- Witness for C6 at a concrete input: two fault-free calls on a fresh
store with no table. -/
theorem C6_create_table_idempotent_witness :
    (∀ (env2 : Env) (st2 : DBState), (create_table env2 st2).res = Except.ok ()) ∧
    (iterCreateTable envOkC 2 ⟨false, [], 1⟩).rows = (⟨false, [], 1⟩ : DBState).rows ∧
    (iterCreateTable envOkC 2 ⟨false, [], 1⟩).nextId = (⟨false, [], 1⟩ : DBState).nextId ∧
    (iterCreateTable envOkC 2 ⟨false, [], 1⟩).tableExists = true :=
  C6_create_table_idempotent envOkC ⟨false, [], 1⟩ 2 rfl rfl (by decide)

/-- Claim C3: under a fault-free environment with the table present,
`fetch_all_expenses` returns all stored records sorted descending by the
text `date` field; in particular inserting records dated January, March,
February 2025 in that order returns them as March, February, January. -/
theorem C3_query_sorted_desc (env : Env) (st : DBState) (hc : env.connOk = true)
    (he : env.execFail = false) (ht : st.tableExists = true) :
    (∃ l, (fetch_all_expenses env st).res = Except.ok l ∧ l.Perm st.rows ∧
      l.Sorted dateGe) ∧
    (fetch_all_expenses envOkC ordExample).res = Except.ok
      [⟨2, Value.real 2, "B", "2025-03-01 12:00:00", none⟩,
       ⟨3, Value.real 3, "C", "2025-02-01 12:00:00", none⟩,
       ⟨1, Value.real 1, "A", "2025-01-01 12:00:00", none⟩] := by
  refine ⟨⟨List.insertionSort dateGe st.rows, fetch_ok_eq env st hc he ht,
    List.perm_insertionSort dateGe st.rows, List.sorted_insertionSort dateGe st.rows⟩, ?_⟩
  rfl

/-- Witness for C3 at a concrete input: the fault-free environment and the
three-row ordering example. -/
theorem C3_query_sorted_desc_witness :
    (∃ l, (fetch_all_expenses envOkC ordExample).res = Except.ok l ∧
      l.Perm ordExample.rows ∧ l.Sorted dateGe) ∧
    (fetch_all_expenses envOkC ordExample).res = Except.ok
      [⟨2, Value.real 2, "B", "2025-03-01 12:00:00", none⟩,
       ⟨3, Value.real 3, "C", "2025-02-01 12:00:00", none⟩,
       ⟨1, Value.real 1, "A", "2025-01-01 12:00:00", none⟩] :=
  C3_query_sorted_desc envOkC ordExample rfl rfl rfl

/-- Claim C4: under a fault-free environment with the table present,
`get_total_balance` equals the sum of the numeric coercions of the stored
amounts, records whose amount does not coerce being excluded (not an
error), and it is 0 on an empty store. -/
theorem C4_total_balance_correct (env : Env) (st : DBState) (hc : env.connOk = true)
    (he : env.execFail = false) (ht : st.tableExists = true) :
    get_total_balance env st =
      Except.ok ((st.rows.filterMap (fun r => to_numeric r.amount)).sum) ∧
    (st.rows = [] → get_total_balance env st = Except.ok 0) := by
  refine ⟨total_balance_eq env st hc he ht, fun hrows => ?_⟩
  rw [total_balance_eq env st hc he ht, hrows]
  rfl

/-- Witness for C4 at a concrete input: the aggregation example store. -/
theorem C4_total_balance_correct_witness :
    get_total_balance envOkC aggExample =
      Except.ok ((aggExample.rows.filterMap (fun r => to_numeric r.amount)).sum) ∧
    (aggExample.rows = [] → get_total_balance envOkC aggExample = Except.ok 0) :=
  C4_total_balance_correct envOkC aggExample rfl rfl rfl

/-- Claim C5: under a fault-free environment with the table present,
`get_category_totals` maps exactly the categories occurring in the stored
records, each to the sum of the (coerced, `NaN`-skipping) amounts of its
records; it is empty on an empty store; and the spec's concrete example
`(10, Food), (20, Food), (5, Transport)` yields
`{Food: 30, Transport: 5}` with total balance 35. -/
theorem C5_category_totals_correct (env : Env) (st : DBState) (hc : env.connOk = true)
    (he : env.execFail = false) (ht : st.tableExists = true) :
    get_category_totals env st = Except.ok (categoryTotalsOf st.rows) ∧
    ((categoryTotalsOf st.rows).map Prod.fst).Perm (st.rows.map (fun r => r.category)).dedup ∧
    (∀ p ∈ categoryTotalsOf st.rows, p.2 = rowCategorySum st.rows p.1) ∧
    (st.rows = [] → get_category_totals env st = Except.ok []) ∧
    get_category_totals envOkC aggExample = Except.ok [("Food", 30), ("Transport", 5)] ∧
    get_total_balance envOkC aggExample = Except.ok 35 := by
  refine ⟨category_totals_eq env st hc he ht, ?_, ?_, ?_, ?_, ?_⟩
  · rw [categoryTotalsOf_keys]
    exact List.perm_insertionSort _ _
  · intro p hp
    simp only [categoryTotalsOf] at hp
    obtain ⟨c, _, rfl⟩ := List.mem_map.mp hp
    rfl
  · intro hrows
    rw [category_totals_eq env st hc he ht, hrows]
    rfl
  · with_unfolding_all rfl
  · with_unfolding_all rfl

/-- Witness for C5 at a concrete input: the aggregation example store. -/
theorem C5_category_totals_correct_witness :
    get_category_totals envOkC aggExample = Except.ok (categoryTotalsOf aggExample.rows) ∧
    ((categoryTotalsOf aggExample.rows).map Prod.fst).Perm
      (aggExample.rows.map (fun r => r.category)).dedup ∧
    (∀ p ∈ categoryTotalsOf aggExample.rows, p.2 = rowCategorySum aggExample.rows p.1) ∧
    (aggExample.rows = [] → get_category_totals envOkC aggExample = Except.ok []) ∧
    get_category_totals envOkC aggExample = Except.ok [("Food", 30), ("Transport", 5)] ∧
    get_total_balance envOkC aggExample = Except.ok 35 :=
  C5_category_totals_correct envOkC aggExample rfl rfl rfl

/-- Claim C9: under a fault-free environment with the table present, the
mapping returned by `get_category_totals` enumerates its category keys in
ascending lexicographic order, without duplicates, and those keys are
exactly the categories occurring in the stored records. -/
theorem C9_category_order_sorted (env : Env) (st : DBState) (hc : env.connOk = true)
    (he : env.execFail = false) (ht : st.tableExists = true) :
    ∃ m, get_category_totals env st = Except.ok m ∧
      (m.map Prod.fst).Sorted strLeP ∧
      (m.map Prod.fst).Nodup ∧
      (m.map Prod.fst).Perm (st.rows.map (fun r => r.category)).dedup := by
  refine ⟨categoryTotalsOf st.rows, category_totals_eq env st hc he ht, ?_, ?_, ?_⟩
  · rw [categoryTotalsOf_keys]
    exact List.sorted_insertionSort _ _
  · rw [categoryTotalsOf_keys]
    exact (List.perm_insertionSort _ _).nodup_iff.mpr (List.nodup_dedup _)
  · rw [categoryTotalsOf_keys]
    exact List.perm_insertionSort _ _

/-- Witness for C9 at a concrete input: the aggregation example store. -/
theorem C9_category_order_sorted_witness :
    ∃ m, get_category_totals envOkC aggExample = Except.ok m ∧
      (m.map Prod.fst).Sorted strLeP ∧
      (m.map Prod.fst).Nodup ∧
      (m.map Prod.fst).Perm (aggExample.rows.map (fun r => r.category)).dedup :=
  C9_category_order_sorted envOkC aggExample rfl rfl rfl

/-- Claim C10: when the store is non-empty but no stored amount coerces to
a number, the total balance is still 0 (indistinguishable from an empty
store) and every occurring category still appears in the category totals,
with total 0. -/
theorem C10_all_non_numeric (env : Env) (st : DBState) (hc : env.connOk = true)
    (he : env.execFail = false) (ht : st.tableExists = true)
    (_hne : st.rows ≠ []) (hnan : ∀ r ∈ st.rows, to_numeric r.amount = none) :
    get_total_balance env st = Except.ok 0 ∧
    ∃ m, get_category_totals env st = Except.ok m ∧
      (m.map Prod.fst).Perm (st.rows.map (fun r => r.category)).dedup ∧
      ∀ p ∈ m, p.2 = 0 := by
  constructor
  · rw [total_balance_eq env st hc he ht, List.filterMap_eq_nil_iff.mpr hnan]
    rfl
  · refine ⟨categoryTotalsOf st.rows, category_totals_eq env st hc he ht, ?_, ?_⟩
    · rw [categoryTotalsOf_keys]
      exact List.perm_insertionSort _ _
    · intro p hp
      simp only [categoryTotalsOf] at hp
      obtain ⟨c, _, rfl⟩ := List.mem_map.mp hp
      show rowCategorySum st.rows c = 0
      unfold rowCategorySum
      have hz : (st.rows.filter (fun r => r.category == c)).filterMap
          (fun r => to_numeric r.amount) = [] :=
        List.filterMap_eq_nil_iff.mpr (fun r hr => hnan r (List.mem_of_mem_filter hr))
      rw [hz]
      rfl

/-- Witness for C10 at a concrete input: a store holding two rows whose
amounts are the non-numeric strings abc and xyz. -/
theorem C10_all_non_numeric_witness :
    get_total_balance envOkC nanExample = Except.ok 0 ∧
    ∃ m, get_category_totals envOkC nanExample = Except.ok m ∧
      (m.map Prod.fst).Perm (nanExample.rows.map (fun r => r.category)).dedup ∧
      ∀ p ∈ m, p.2 = 0 :=
  C10_all_non_numeric envOkC nanExample rfl rfl rfl (by decide)
    (by intro r hr; fin_cases hr <;> rfl)

theorem add_expense_state_cases (env : Env) (st : DBState) (amount : Value)
    (category date : String) (description : Option String) :
    (add_expense env st amount category date description).st = st ∨
    ((add_expense env st amount category date description).st =
      { st with
          rows := st.rows ++ [⟨st.nextId, applyRealAffinity amount, category, date, description⟩],
          nextId := st.nextId + 1 } ∧
      applyRealAffinity amount ≠ Value.null) := by
  rcases env with ⟨c, e⟩
  cases c
  · left; rfl
  · cases h : (e || !st.tableExists || applyRealAffinity amount == Value.null)
    · right
      constructor
      · simp [add_expense, getConnection, h]
      · intro hn
        rw [hn] at h
        simp at h
    · left
      simp [add_expense, getConnection, h]

/-- Claim C2: whenever `add_expense` reports success, a subsequent
fault-free `fetch_all_expenses` returns the previously stored records
unchanged plus exactly one new record carrying the inserted category, date
and description unchanged and the amount up to REAL-affinity coercion,
under a freshly assigned id not used by any previous record. -/
theorem C2_insert_roundtrip (env qenv : Env) (st : DBState) (amount : Value)
    (category date : String) (description : Option String)
    (hqc : qenv.connOk = true) (hqe : qenv.execFail = false)
    (hid : ∀ r ∈ st.rows, r.id < st.nextId)
    (hok : (add_expense env st amount category date description).res = Except.ok true) :
    ∃ l, (fetch_all_expenses qenv (add_expense env st amount category date description).st).res
        = Except.ok l ∧
      l.Perm (st.rows ++ [⟨st.nextId, applyRealAffinity amount, category, date, description⟩]) ∧
      l.countP (fun r => r.id == st.nextId) = 1 ∧
      (∀ r ∈ st.rows, r.id ≠ st.nextId) := by
  obtain ⟨hc, he, ht, hnn, hst⟩ := add_expense_ok_cases env st amount category date description hok
  rw [hst]
  have ht' : ({ st with
      rows := st.rows ++ [⟨st.nextId, applyRealAffinity amount, category, date, description⟩],
      nextId := st.nextId + 1 } : DBState).tableExists = true := ht
  refine ⟨_, fetch_ok_eq qenv _ hqc hqe ht', List.perm_insertionSort _ _, ?_, ?_⟩
  · rw [(List.perm_insertionSort dateGe _).countP_eq, List.countP_append]
    have h0 : st.rows.countP (fun r => r.id == st.nextId) = 0 :=
      List.countP_eq_zero.mpr (fun r hr => by simp [Nat.ne_of_lt (hid r hr)])
    simp [h0]
  · exact fun r hr => Nat.ne_of_lt (hid r hr)

/-- Witness for C2 at a concrete input: inserting
`(25, Food, 2025-01-01 12:00:00, lunch)` into a fresh store. -/
theorem C2_insert_roundtrip_witness :
    ∃ l, (fetch_all_expenses envOkC
        (add_expense envOkC emptyStore (Value.real 25) "Food" "2025-01-01 12:00:00"
          (some "lunch")).st).res = Except.ok l ∧
      l.Perm (emptyStore.rows ++
        [⟨emptyStore.nextId, applyRealAffinity (Value.real 25), "Food",
          "2025-01-01 12:00:00", some "lunch"⟩]) ∧
      l.countP (fun r => r.id == emptyStore.nextId) = 1 ∧
      (∀ r ∈ emptyStore.rows, r.id ≠ emptyStore.nextId) :=
  C2_insert_roundtrip envOkC envOkC emptyStore (Value.real 25) "Food" "2025-01-01 12:00:00"
    (some "lunch") rfl rfl (by simp [emptyStore]) rfl

/-- Claim C7: the store is append-only and its id/nullability invariant is
preserved by every operation: `create_table` and `fetch_all_expenses` leave
the rows untouched, `add_expense` either leaves the rows untouched or
appends exactly one new row with the next id and a non-null amount, the id
counter never decreases, and the invariant (strictly increasing unique ids
below the counter, non-null amounts) is maintained. -/
theorem C7_append_only_invariants (env : Env) (st : DBState) (amount : Value)
    (category date : String) (description : Option String) (hinv : StoreInv st) :
    (StoreInv (create_table env st).st ∧ (create_table env st).st.rows = st.rows) ∧
    (StoreInv (fetch_all_expenses env st).st ∧ (fetch_all_expenses env st).st = st) ∧
    (StoreInv (add_expense env st amount category date description).st ∧
      ((add_expense env st amount category date description).st.rows = st.rows ∨
        (add_expense env st amount category date description).st.rows =
          st.rows ++ [⟨st.nextId, applyRealAffinity amount, category, date, description⟩]) ∧
      st.nextId ≤ (add_expense env st amount category date description).st.nextId) := by
  obtain ⟨hch, hbound, hnonnull⟩ := hinv
  refine ⟨⟨?_, (create_table_preserves env st).1⟩, ?_, ?_⟩
  · unfold StoreInv
    rw [(create_table_preserves env st).1, (create_table_preserves env st).2]
    exact ⟨hch, hbound, hnonnull⟩
  · rw [fetch_state_id env st]
    exact ⟨⟨hch, hbound, hnonnull⟩, rfl⟩
  · rcases add_expense_state_cases env st amount category date description with hA | ⟨hA, hnn⟩
    · rw [hA]
      exact ⟨⟨hch, hbound, hnonnull⟩, Or.inl rfl, Nat.le_refl _⟩
    · rw [hA]
      refine ⟨⟨?_, ?_, ?_⟩, Or.inr rfl, Nat.le_succ _⟩
      · rw [List.chain'_append]
        refine ⟨hch, List.chain'_singleton _, ?_⟩
        intro x hx y hy
        have hxmem : x ∈ st.rows := List.mem_of_mem_getLast? hx
        have hy' : y = ⟨st.nextId, applyRealAffinity amount, category, date, description⟩ := by
          have := hy
          simp at this
          exact this.symm
        rw [hy']
        exact hbound x hxmem
      · intro r hr
        rcases List.mem_append.mp hr with h | h
        · exact Nat.lt_succ_of_lt (hbound r h)
        · have : r = ⟨st.nextId, applyRealAffinity amount, category, date, description⟩ := by
            simpa using h
          rw [this]
          exact Nat.lt_succ_self _
      · intro r hr
        rcases List.mem_append.mp hr with h | h
        · exact hnonnull r h
        · have : r = ⟨st.nextId, applyRealAffinity amount, category, date, description⟩ := by
            simpa using h
          rw [this]
          exact hnn

/-- Witness for C7 at a concrete input: a fresh store satisfying the
invariant, a fault-free environment, and the insertion of
`(25, Food, 2025-01-01 12:00:00)`. -/
theorem C7_append_only_invariants_witness :
    (StoreInv (create_table envOkC emptyStore).st ∧
      (create_table envOkC emptyStore).st.rows = emptyStore.rows) ∧
    (StoreInv (fetch_all_expenses envOkC emptyStore).st ∧
      (fetch_all_expenses envOkC emptyStore).st = emptyStore) ∧
    (StoreInv (add_expense envOkC emptyStore (Value.real 25) "Food" "2025-01-01 12:00:00"
        none).st ∧
      ((add_expense envOkC emptyStore (Value.real 25) "Food" "2025-01-01 12:00:00"
          none).st.rows = emptyStore.rows ∨
        (add_expense envOkC emptyStore (Value.real 25) "Food" "2025-01-01 12:00:00"
          none).st.rows = emptyStore.rows ++
            [⟨emptyStore.nextId, applyRealAffinity (Value.real 25), "Food",
              "2025-01-01 12:00:00", none⟩]) ∧
      emptyStore.nextId ≤ (add_expense envOkC emptyStore (Value.real 25) "Food"
        "2025-01-01 12:00:00" none).st.nextId) :=
  C7_append_only_invariants envOkC emptyStore (Value.real 25) "Food" "2025-01-01 12:00:00"
    none ⟨List.chain'_nil, by simp [emptyStore], by simp [emptyStore]⟩
